import Mathlib

/-!
# AudioControlsEditorWindow.cpp: the editor window's close, save, reopen and folder-watch logic

A shallow embedding of `CAudioControlsEditorWindow`
(`dev/Gems/AudioSystem/Code/Source/Editor/AudioControlsEditorWindow.cpp`).

* Member functions become functions on the record `CAudioControlsEditorWindow`; every
  call the source makes into Qt, the editor, the plugin or the audio system is written to
  a chronological list of `Event`s.
* Values the source obtains from outside during one handler (the button a message box
  returns, the level name, the implementation pointer, the directory listing) are
  arguments of the handler.
* The engine functions whose code lives in other files (`IsDirty`, `SaveModels`,
  `StringFunc::Path::Join`, ...) are fields of `Host`; nothing is assumed about them.
* A dereference of `m_pATLModel` whose value the control flow needs has no result when
  the pointer is null (`Option`); void calls through other pointers are events.
-/

namespace AudioControls

/-! ## Qt constants used by the source -/

namespace QMessageBox
/-- Qt's `QMessageBox::Save`. -/
def Save : Int := 0x00000800
/-- Qt's `QMessageBox::Yes`. -/
def Yes : Int := 0x00004000
/-- Qt's `QMessageBox::No`. -/
def No : Int := 0x00010000
/-- Qt's `QMessageBox::Cancel`. -/
def Cancel : Int := 0x00400000
/-- Qt's `QMessageBox::Discard`. -/
def Discard : Int := 0x00800000
end QMessageBox

namespace Qt
/-- Qt's `Qt::Key_S`. -/
def Key_S : Nat := 0x53
/-- Qt's `Qt::Key_Z`. -/
def Key_Z : Nat := 0x5a
/-- Qt's `Qt::ShiftModifier`. -/
def ShiftModifier : Nat := 0x02000000
/-- Qt's `Qt::ControlModifier`. -/
def ControlModifier : Nat := 0x04000000
end Qt

/-- The C runtime's `_A_SUBDIR` attribute bit of `_finddata_t::attrib`. -/
def _A_SUBDIR : Nat := 0x10

/-! ## Data -/

/-- The fields of `_finddata_t` that `StartWatchingFolder` reads. -/
structure _finddata_t where
  name : String
  attrib : Nat
deriving DecidableEq, Repr

/-- What `ICryPak::FindFirst` / `FindNext` enumerate for the search pattern of one folder:
`none` when `FindFirst` returns `-1`; otherwise the entry `FindFirst` fills in and the
entries the following successful `FindNext` calls fill in. Each entry carries the
enumeration of the folder named by joining the parent path with the entry's name. -/
inductive PakFolder where
  | node (found : Option ((_finddata_t × PakFolder) × List (_finddata_t × PakFolder)))

/-- The entries enumerated in a folder, in enumeration order. -/
def PakFolder.entries : PakFolder → List (_finddata_t × PakFolder)
  | .node none => []
  | .node (some (first, rest)) => first :: rest

/-- The part of `IAudioSystemEditor` the window reads. -/
structure IAudioSystemEditor where
  GetName : String
  GetDataPath : String
deriving DecidableEq, Repr

/-- The accept flag of a `QCloseEvent`. -/
structure QCloseEvent where
  m_accept : Bool
deriving DecidableEq, Repr

/-- Qt's `QEvent::accept`. -/
def QCloseEvent.accept (_e : QCloseEvent) : QCloseEvent := { m_accept := true }

/-- Qt's `QEvent::ignore`. -/
def QCloseEvent.ignore (_e : QCloseEvent) : QCloseEvent := { m_accept := false }

/-- Calls that leave the window, in the order the source makes them. `Save` and
`ReloadMiddlewareData` mark the entry into the member function of that name. -/
inductive Event where
  | setupUi
  | messageBox (text informativeText : String) (standardButtons : List Int)
      (defaultButton : Int) (exec : Int)
  | setOverrideCursor
  | restoreOverrideCursor
  | accept
  | ignore
  | Save
  | SaveModels
  | ReloadModels
  | ReloadScopes
  | PushRequest_CLEAR_CONTROLS_DATA
  | PushRequest_PARSE_CONTROLS_DATA (path : String) (levelSpecific : Bool)
  | DataSaved
  | RefreshAudioSystem (levelName : String)
  | ClearDirtyFlags
  | addPath (path : String)
  | ATLControlsPanel_Reload
  | AudioSystemPanel_Reload
  | InspectorPanel_Reload
  | SetSelectedControls
  | SetAllowedControls (type : Nat) (bAllowed : Bool)
  | setWindowTitle (title : String)
  | setTitleBarWidget (dock : String)
  | addWidget (panel : String)
  | connect (signal slot : String)
  | RegisterNotifyListener
  | UnregisterNotifyListener
  | ReloadMiddlewareData
  | AudioSystemImpl_Reload
  | Undo
  | Redo
  | QMainWindow_keyPressEvent
deriving DecidableEq, Repr

/-- Engine code the window calls that is defined in other files. `M` is the state of the
`CATLControlsModel` object. `Join first second` is the string left in the out-parameter
of `AzFramework::StringFunc::Path::Join` when, as in `StartWatchingFolder`, the trailing
arguments are defaulted and the out-parameter is the string that held `second`;
`JoinOntoFirst first second` is the one left when, as in `UpdateAudioSystemData`, the
out-parameter is the string that held `first`. -/
structure Host (M : Type) where
  IsDirty : M → Bool
  IsTypeDirty : M → Nat → Bool
  ClearDirtyFlags : M → M
  SaveModels : M → M
  ReloadModels : M → M
  eACET_PRELOAD : Nat
  eACET_NUM_TYPES : Nat
  Join : String → String → String
  JoinOntoFirst : String → String → String
  QString_compare_CaseInsensitive : String → String → Int
  GetControlsPath : String
  GetEditingGameDataFolder : String
  eNotify_OnEndSceneSave : Nat

/-- The window. `m_wasClosed` is the static member, kept in the record so that it
outlives a window: the constructor copies it from the previous state. `m_pATLModel`
is `none` for a null pointer and otherwise holds the state of the model it points to.
The three panel pointers are `true` once the constructor has created the panels.
`m_fileSystemWatcher` lists the arguments of its `addPath` calls. -/
structure CAudioControlsEditorWindow (M : Type) where
  m_wasClosed : Bool
  m_pATLModel : Option M
  m_pATLControlsPanel : Bool
  m_pInspectorPanel : Bool
  m_pAudioSystemPanel : Bool
  m_fileSystemWatcher : List String

/-- The state before any window exists: `bool CAudioControlsEditorWindow::m_wasClosed = false`. -/
def initial (M : Type) : CAudioControlsEditorWindow M :=
  { m_wasClosed := false, m_pATLModel := none, m_pATLControlsPanel := false,
    m_pInspectorPanel := false, m_pAudioSystemPanel := false, m_fileSystemWatcher := [] }

/-! ## StartWatchingFolder -/

mutual
/-- `CAudioControlsEditorWindow::StartWatchingFolder`: the arguments of the `addPath`
calls it makes, in order. `pak` is what `FindFirst` and `FindNext` enumerate for the
search string the source builds from `folder` and `"*.*"`. -/
def StartWatchingFolder {M : Type} (H : Host M) (folder : String) : PakFolder → List String
  | .node none => [folder]
  | .node (some (fd, rest)) =>
      folder :: (StartWatchingFolder.body H folder fd ++ StartWatchingFolder.next H folder rest)
/-- The body of the `do` loop for the entry currently in `fd`. -/
def StartWatchingFolder.body {M : Type} (H : Host M) (folder : String) :
    _finddata_t × PakFolder → List String
  | (fd, sub) =>
      let sName := fd.name
      if !sName.isEmpty && sName.front != '.' then
        if fd.attrib &&& _A_SUBDIR != 0 then
          StartWatchingFolder H (H.Join folder sName) sub
        else []
      else []
/-- The iterations of the `do` loop after the first: one per successful `FindNext`. -/
def StartWatchingFolder.next {M : Type} (H : Host M) (folder : String) :
    List (_finddata_t × PakFolder) → List String
  | [] => []
  | fd :: rest => StartWatchingFolder.body H folder fd ++ StartWatchingFolder.next H folder rest
end

/-! ## Member functions -/

variable {M : Type}

/-- `CAudioControlsEditorWindow::UpdateInspector`. -/
def UpdateInspector (w : CAudioControlsEditorWindow M) :
    CAudioControlsEditorWindow M × List Event :=
  (w, [Event.SetSelectedControls])

/-- `CAudioControlsEditorWindow::Update`. `pAudioSystemImpl` is what
`GetAudioSystemEditorImpl()` returns, `pak` the enumeration of its data path. -/
def Update (H : Host M) (w : CAudioControlsEditorWindow M)
    (pAudioSystemImpl : Option IAudioSystemEditor) (pak : PakFolder) :
    CAudioControlsEditorWindow M × List Event :=
  if !w.m_pATLControlsPanel then (w, [])
  else
    let evs := [Event.ATLControlsPanel_Reload, Event.AudioSystemPanel_Reload] ++ (UpdateInspector w).2
    match pAudioSystemImpl with
    | some impl =>
        let added := StartWatchingFolder H impl.GetDataPath pak
        ({ w with m_fileSystemWatcher := w.m_fileSystemWatcher ++ added },
          evs ++ added.map Event.addPath ++ [Event.setWindowTitle (impl.GetName ++ " Controls")])
    | none => (w, evs)

/-- `CAudioControlsEditorWindow::ReloadMiddlewareData`. -/
def ReloadMiddlewareData (w : CAudioControlsEditorWindow M)
    (pAudioSystemImpl : Option IAudioSystemEditor) :
    CAudioControlsEditorWindow M × List Event :=
  (w, [Event.ReloadMiddlewareData]
      ++ (if pAudioSystemImpl.isSome then [Event.AudioSystemImpl_Reload] else [])
      ++ [Event.AudioSystemPanel_Reload, Event.InspectorPanel_Reload])

/-- The constructor. `m_wasClosed` is the static member as the previous windows left
it; `GetATLModel` and `pAudioSystemImpl` are what the plugin returns. When no
implementation is present the panel pointers stay null, the value `Update` tests for. -/
def construct (H : Host M) (m_wasClosed : Bool) (GetATLModel : Option M)
    (pAudioSystemImpl : Option IAudioSystemEditor) (pak : PakFolder) :
    CAudioControlsEditorWindow M × List Event :=
  let w0 : CAudioControlsEditorWindow M :=
    { m_wasClosed := m_wasClosed, m_pATLModel := GetATLModel, m_pATLControlsPanel := false,
      m_pInspectorPanel := false, m_pAudioSystemPanel := false, m_fileSystemWatcher := [] }
  match pAudioSystemImpl with
  | none => (w0, [Event.setupUi])
  | some impl =>
      let w1 := { w0 with m_pATLControlsPanel := true, m_pInspectorPanel := true,
                          m_pAudioSystemPanel := true }
      let u := Update H w1 pAudioSystemImpl pak
      let evs := [Event.setupUi,
          Event.setTitleBarWidget "m_pATLControlsDockWidget",
          Event.setTitleBarWidget "m_pInspectorDockWidget",
          Event.setTitleBarWidget "m_pMiddlewareDockWidget",
          Event.setWindowTitle (impl.GetName ++ " Controls"),
          Event.addWidget "m_pATLControlsPanel",
          Event.addWidget "m_pInspectorPanel",
          Event.addWidget "m_pAudioSystemPanel"] ++ u.2 ++
        [Event.connect "SelectedControlChanged()" "UpdateInspector()",
         Event.connect "SelectedControlChanged()" "UpdateFilterFromSelection()",
         Event.connect "ControlTypeFiltered(EACEControlType, bool)"
           "FilterControlType(EACEControlType, bool)",
         Event.connect "ImplementationChanged()" "Update()",
         Event.connect "directoryChanged(QString)" "ReloadMiddlewareData()",
         Event.RegisterNotifyListener]
      if u.1.m_wasClosed then
        let r := ReloadMiddlewareData u.1 pAudioSystemImpl
        (r.1, evs ++ r.2)
      else (u.1, evs)

/-- The destructor. The static member survives it. -/
def destruct (w : CAudioControlsEditorWindow M) : CAudioControlsEditorWindow M × List Event :=
  (w, [Event.UnregisterNotifyListener])

/-- `CAudioControlsEditorWindow::UpdateAudioSystemData`: the requests it pushes and the
`DataSaved` call, which the source makes on the pointer `GetAudioSystemEditorImpl()`
returns without testing it. `levelName` is the string the source reads through the
pointer it takes from `GetLevelName().toUtf8().data()`. -/
def UpdateAudioSystemData (H : Host M) (levelName : String) : List Event :=
  let sControlsPath := H.JoinOntoFirst H.GetEditingGameDataFolder H.GetControlsPath
  let sLevels := H.JoinOntoFirst sControlsPath "levels"
  let sLevel := H.JoinOntoFirst sLevels levelName
  [Event.PushRequest_CLEAR_CONTROLS_DATA,
   Event.PushRequest_PARSE_CONTROLS_DATA sControlsPath false,
   Event.PushRequest_PARSE_CONTROLS_DATA sLevel true,
   Event.DataSaved]

/-- The question `Save` asks when preloads were modified, answered with `exec`. -/
def refreshQuestion (exec : Int) : Event :=
  Event.messageBox
    "Preload requests have been modified.\n\nFor the new data to be loaded the audio system needs to be refreshed, this will stop all currently playing audio. Do you want to do this now?\n\nYou can always refresh manually at a later time through the Audio menu."
    "" [QMessageBox.Yes, QMessageBox.No] QMessageBox.No exec

/-- The `if (bPreloadsChanged)` block of `Save`. -/
def Save.refresh (H : Host M) (bPreloadsChanged : Bool) (exec : Int) (GetLevelName : String) :
    List Event :=
  if bPreloadsChanged then
    if exec = QMessageBox.Yes then
      let sLevelName :=
        if H.QString_compare_CaseInsensitive GetLevelName "Untitled" = 0 then ""
        else GetLevelName
      [refreshQuestion exec, Event.RefreshAudioSystem sLevelName]
    else [refreshQuestion exec]
  else []

/-- `CAudioControlsEditorWindow::Save`. `exec` is the button the refresh question
returns if it is shown, `GetLevelName` the editor's level name. The result is `none`
when `m_pATLModel` is null, which the source dereferences first. -/
def Save (H : Host M) (w : CAudioControlsEditorWindow M) (exec : Int) (GetLevelName : String) :
    Option (CAudioControlsEditorWindow M × List Event) :=
  match w.m_pATLModel with
  | none => none
  | some m =>
      let bPreloadsChanged := H.IsTypeDirty m H.eACET_PRELOAD
      let m1 := H.SaveModels m
      some ({ w with m_pATLModel := some (H.ClearDirtyFlags m1) },
            [Event.Save, Event.SaveModels] ++ UpdateAudioSystemData H GetLevelName
              ++ Save.refresh H bPreloadsChanged exec GetLevelName ++ [Event.ClearDirtyFlags])

/-- The test `m_pATLModel && m_pATLModel->IsDirty()`. -/
def modelIsDirty (H : Host M) (w : CAudioControlsEditorWindow M) : Bool :=
  match w.m_pATLModel with
  | some m => H.IsDirty m
  | none => false

/-- The unsaved-changes dialog of `closeEvent`, answered with `exec`. -/
def unsavedChangesDialog (exec : Int) : Event :=
  Event.messageBox "There are unsaved changes." "Do you want to save your changes?"
    [QMessageBox.Save, QMessageBox.Discard, QMessageBox.Cancel] QMessageBox.Save exec

/-- The `if`/`else` of `closeEvent`, up to its last statement. The first component
tells whether the `return` of the `default:` case was executed. `unsaved` is the button
the unsaved-changes dialog returns if it is shown; `refresh` and `GetLevelName` are
passed on to `Save`. -/
def closeEvent.dialog (H : Host M) (w : CAudioControlsEditorWindow M) (pEvent : QCloseEvent)
    (unsaved refresh : Int) (GetLevelName : String) :
    Option (Bool × CAudioControlsEditorWindow M × QCloseEvent × List Event) :=
  if modelIsDirty H w then
    let box := unsavedChangesDialog unsaved
    if unsaved = QMessageBox.Save then
      match Save H w refresh GetLevelName with
      | none => none
      | some (w1, evs) =>
          some (false, w1, pEvent.accept,
                [box, Event.setOverrideCursor] ++ evs ++ [Event.restoreOverrideCursor, Event.accept])
    else if unsaved = QMessageBox.Discard then
      some (false, w, pEvent.accept, [box, Event.accept])
    else
      some (true, w, pEvent.ignore, [box, Event.ignore])
  else
    some (false, w, pEvent.accept, [Event.accept])

/-- `CAudioControlsEditorWindow::closeEvent`: unless the `default:` case returned, the
last statement sets `m_wasClosed`. -/
def closeEvent (H : Host M) (w : CAudioControlsEditorWindow M) (pEvent : QCloseEvent)
    (unsaved refresh : Int) (GetLevelName : String) :
    Option (CAudioControlsEditorWindow M × QCloseEvent × List Event) :=
  match closeEvent.dialog H w pEvent unsaved refresh GetLevelName with
  | none => none
  | some (true, w1, e, evs) => some (w1, e, evs)
  | some (false, w1, e, evs) => some ({ w1 with m_wasClosed := true }, e, evs)

/-- `CAudioControlsEditorWindow::keyPressEvent`. -/
def keyPressEvent (H : Host M) (w : CAudioControlsEditorWindow M) (key modifiers : Nat)
    (refresh : Int) (GetLevelName : String) :
    Option (CAudioControlsEditorWindow M × List Event) :=
  if key = Qt.Key_S ∧ modifiers = Qt.ControlModifier then
    match Save H w refresh GetLevelName with
    | none => none
    | some (w1, evs) => some (w1, evs ++ [Event.QMainWindow_keyPressEvent])
  else if key = Qt.Key_Z ∧ modifiers &&& Qt.ControlModifier ≠ 0 then
    if modifiers &&& Qt.ShiftModifier ≠ 0 then
      some (w, [Event.Redo, Event.QMainWindow_keyPressEvent])
    else
      some (w, [Event.Undo, Event.QMainWindow_keyPressEvent])
  else
    some (w, [Event.QMainWindow_keyPressEvent])

/-- `CAudioControlsEditorWindow::Reload`. `exec` is the button the reload question
returns if it is shown. -/
def Reload (H : Host M) (w : CAudioControlsEditorWindow M) (exec : Int)
    (pAudioSystemImpl : Option IAudioSystemEditor) (pak : PakFolder) :
    CAudioControlsEditorWindow M × List Event :=
  let asked : Bool × List Event :=
    if modelIsDirty H w then
      (decide (exec = QMessageBox.Yes),
       [Event.messageBox "If you reload you will lose all your unsaved changes."
          "Are you sure you want to reload?" [QMessageBox.Yes, QMessageBox.No] QMessageBox.No exec])
    else (true, [])
  if asked.1 then
    let w1 := { w with m_pATLModel := w.m_pATLModel.map H.ReloadModels }
    let u := Update H w1 pAudioSystemImpl pak
    (u.1, asked.2 ++ [Event.ReloadModels] ++ u.2)
  else (w, asked.2)

/-- The first loop of `UpdateFilterFromSelection`: `(bAllSameType, selectedType)` after
visiting the controls `GetControlByID` returned (`none` for a null control). -/
def UpdateFilterFromSelection.scan (eACET_NUM_TYPES : Nat) :
    Bool × Nat → List (Option Nat) → Bool × Nat
  | acc, [] => acc
  | (bAllSameType, selectedType), none :: rest =>
      UpdateFilterFromSelection.scan eACET_NUM_TYPES (bAllSameType, selectedType) rest
  | (bAllSameType, selectedType), some t :: rest =>
      if selectedType = eACET_NUM_TYPES then
        UpdateFilterFromSelection.scan eACET_NUM_TYPES (bAllSameType, t) rest
      else if selectedType ≠ t then
        UpdateFilterFromSelection.scan eACET_NUM_TYPES (false, selectedType) rest
      else
        UpdateFilterFromSelection.scan eACET_NUM_TYPES (bAllSameType, selectedType) rest

/-- `CAudioControlsEditorWindow::UpdateFilterFromSelection`. `controls` holds, for each
selected id, the type of the control `m_pATLModel->GetControlByID` returns. -/
def UpdateFilterFromSelection (H : Host M) (w : CAudioControlsEditorWindow M)
    (controls : List (Option Nat)) : Option (CAudioControlsEditorWindow M × List Event) :=
  if w.m_pATLModel.isNone ∧ controls ≠ [] then none
  else
    let r := UpdateFilterFromSelection.scan H.eACET_NUM_TYPES (true, H.eACET_NUM_TYPES) controls
    let bSelectedFolder := decide (r.2 = H.eACET_NUM_TYPES)
    some (w, (List.range H.eACET_NUM_TYPES).map fun i =>
      Event.SetAllowedControls i (bSelectedFolder || (r.1 && decide (r.2 = i))))

/-- `CAudioControlsEditorWindow::OnEditorNotifyEvent`. -/
def OnEditorNotifyEvent (H : Host M) (w : CAudioControlsEditorWindow M) (event : Nat) :
    CAudioControlsEditorWindow M × List Event :=
  if event = H.eNotify_OnEndSceneSave then (w, [Event.ReloadScopes, Event.InspectorPanel_Reload])
  else (w, [])

/-- `CAudioControlsEditorWindow::FilterControlType`. -/
def FilterControlType (w : CAudioControlsEditorWindow M) (type : Nat) (bShow : Bool) :
    CAudioControlsEditorWindow M × List Event :=
  (w, [Event.SetAllowedControls type bShow])

/-! ## Sequences of window operations -/

/-- One operation on the window: a constructor or destructor call, a call of a member
function with the values it obtains from outside, or an edit of the model through the
panels (`edit`). -/
inductive Op (M : Type) where
  | construct (GetATLModel : Option M) (pAudioSystemImpl : Option IAudioSystemEditor)
      (pak : PakFolder)
  | destruct
  | closeEvent (pEvent : QCloseEvent) (unsaved refresh : Int) (GetLevelName : String)
  | keyPressEvent (key modifiers : Nat) (refresh : Int) (GetLevelName : String)
  | Reload (exec : Int) (pAudioSystemImpl : Option IAudioSystemEditor) (pak : PakFolder)
  | Update (pAudioSystemImpl : Option IAudioSystemEditor) (pak : PakFolder)
  | Save (exec : Int) (GetLevelName : String)
  | UpdateInspector
  | UpdateFilterFromSelection (controls : List (Option Nat))
  | OnEditorNotifyEvent (event : Nat)
  | FilterControlType (type : Nat) (bShow : Bool)
  | ReloadMiddlewareData (pAudioSystemImpl : Option IAudioSystemEditor)
  | StartWatchingFolder (folder : String) (pak : PakFolder)
  | edit (m : M)

/-- The effect of one operation; `none` when it dereferences a null `m_pATLModel`. -/
def step (H : Host M) (w : CAudioControlsEditorWindow M) :
    Op M → Option (CAudioControlsEditorWindow M × List Event)
  | .construct model impl pak => some (construct H w.m_wasClosed model impl pak)
  | .destruct => some (destruct w)
  | .closeEvent e unsaved refresh lvl =>
      (closeEvent H w e unsaved refresh lvl).map fun r => (r.1, r.2.2)
  | .keyPressEvent key modifiers refresh lvl => keyPressEvent H w key modifiers refresh lvl
  | .Reload exec impl pak => some (Reload H w exec impl pak)
  | .Update impl pak => some (Update H w impl pak)
  | .Save exec lvl => Save H w exec lvl
  | .UpdateInspector => some (UpdateInspector w)
  | .UpdateFilterFromSelection controls => UpdateFilterFromSelection H w controls
  | .OnEditorNotifyEvent event => some (OnEditorNotifyEvent H w event)
  | .FilterControlType type bShow => some (FilterControlType w type bShow)
  | .ReloadMiddlewareData impl => some (ReloadMiddlewareData w impl)
  | .StartWatchingFolder folder pak =>
      let added := StartWatchingFolder H folder pak
      some ({ w with m_fileSystemWatcher := w.m_fileSystemWatcher ++ added },
            added.map Event.addPath)
  | .edit m => some ({ w with m_pATLModel := w.m_pATLModel.map fun _ => m }, [])

/-- The state after a sequence of operations. -/
def run (H : Host M) : CAudioControlsEditorWindow M → List (Op M) →
    Option (CAudioControlsEditorWindow M)
  | w, [] => some w
  | w, op :: ops =>
      match step H w op with
      | none => none
      | some (w1, _) => run H w1 ops

/-! ## Concrete host and inputs used to evaluate the definitions -/

/-- A model state with one dirty flag per control type `0..5`. -/
def sampleHost : Host (List Bool) :=
  { IsDirty := fun m => m.any id
    IsTypeDirty := fun m t => m.getD t false
    ClearDirtyFlags := fun m => m.map fun _ => false
    SaveModels := fun m => m.map fun _ => false
    ReloadModels := fun m => m.map fun _ => false
    eACET_PRELOAD := 5
    eACET_NUM_TYPES := 6
    Join := fun a b => a ++ "/" ++ b
    JoinOntoFirst := fun a b => a ++ "/" ++ b
    QString_compare_CaseInsensitive := fun a b =>
      if a.data.map Char.toLower = b.data.map Char.toLower then 0 else 1
    GetControlsPath := "libs/gameaudio"
    GetEditingGameDataFolder := "game"
    eNotify_OnEndSceneSave := 7 }

/-- A model whose preload controls were edited. -/
def dirtyPreloads : List Bool := [false, false, false, false, false, true]

/-- A window on `dirtyPreloads` built with an implementation present. -/
def sampleWindow : CAudioControlsEditorWindow (List Bool) :=
  { m_wasClosed := false, m_pATLModel := some dirtyPreloads, m_pATLControlsPanel := true,
    m_pInspectorPanel := true, m_pAudioSystemPanel := true, m_fileSystemWatcher := [] }

/-- A data folder with a sub-directory `banks` (holding `sfx` and a hidden `.cache`),
a file `readme.txt`, and the entries `.` and `.git`. -/
def samplePak : PakFolder :=
  .node (some ((⟨".", 0x10⟩, .node none),
    [(⟨"banks", 0x10⟩,
        .node (some ((⟨"sfx", 0x10⟩, .node none),
                     [(⟨".cache", 0x10⟩, .node (some ((⟨"x", 0x10⟩, .node none), [])))]))),
     (⟨"readme.txt", 0x20⟩, .node (some ((⟨"y", 0x10⟩, .node none), []))),
     (⟨".git", 0x10⟩, .node (some ((⟨"objects", 0x10⟩, .node none), [])))]))

/-- The implementation used in the sample runs. -/
def sampleImpl : IAudioSystemEditor := { GetName := "Wwise", GetDataPath := "sounds" }

/-- Open the editor, try to close it with unsaved preload edits and cancel, close it
again and save, then open it again. -/
def sampleOps : List (Op (List Bool)) :=
  [Op.construct (some dirtyPreloads) (some sampleImpl) samplePak,
   Op.closeEvent ⟨true⟩ QMessageBox.Cancel QMessageBox.No "Untitled",
   Op.closeEvent ⟨true⟩ QMessageBox.Save QMessageBox.Yes "Untitled",
   Op.construct (some [false, false, false, false, false, false]) (some sampleImpl) samplePak]

/-- The state `sampleOps` ends in. -/
def sampleFinal : CAudioControlsEditorWindow (List Bool) :=
  { m_wasClosed := true, m_pATLModel := some [false, false, false, false, false, false],
    m_pATLControlsPanel := true, m_pInspectorPanel := true, m_pAudioSystemPanel := true,
    m_fileSystemWatcher := ["sounds", "sounds/banks", "sounds/banks/sfx"] }

/-! ## Vocabulary of the statements -/

/-- A sub-directory entry whose name is neither empty nor starts with `'.'`. -/
def Watchable (fd : _finddata_t) : Prop :=
  fd.attrib &&& _A_SUBDIR ≠ 0 ∧ fd.name ≠ "" ∧ fd.name.data.head? ≠ some '.'

/-- A chain of entries below `pak`: the first is enumerated in `pak`, each next one in the
folder of the one before. -/
def IsChain : PakFolder → List (_finddata_t × PakFolder) → Prop
  | _, [] => True
  | pak, e :: es => e ∈ pak.entries ∧ IsChain e.2 es

/-- The path of the folder a chain leads to: the names joined onto `folder` one by one. -/
def chainPath (H : Host M) (folder : String) (chain : List (_finddata_t × PakFolder)) : String :=
  chain.foldl (fun p e => H.Join p e.1.name) folder

/-- `folder` itself or a descendant directory reached through watchable entries only. -/
def Reachable (H : Host M) (folder : String) (pak : PakFolder) (p : String) : Prop :=
  ∃ chain, IsChain pak chain ∧ (∀ e ∈ chain, Watchable e.1) ∧ p = chainPath H folder chain

/-! ## Save -/

theorem nameCheck_iff (s : String) :
    (!s.isEmpty && s.front != '.') = true ↔ s ≠ "" ∧ s.data.head? ≠ some '.' := by
  obtain ⟨l⟩ := s
  cases l with
  | nil => simp [String.isEmpty_iff]
  | cons c cs =>
    have h1 : (String.mk (c :: cs)) ≠ "" := by
      intro h
      have := congrArg String.data h
      simp at this
    have h2 : (String.mk (c :: cs)).isEmpty = false := by
      cases h : (String.mk (c :: cs)).isEmpty
      · rfl
      · exact absurd ((String.isEmpty_iff _).1 h) h1
    simp [h1, h2, String.front_eq]

theorem body_eq (H : Host M) (folder : String) (e : _finddata_t × PakFolder) :
    StartWatchingFolder.body H folder e =
      if (!e.1.name.isEmpty && e.1.name.front != '.') = true ∧ e.1.attrib &&& _A_SUBDIR ≠ 0 then
        StartWatchingFolder H (H.Join folder e.1.name) e.2
      else [] := by
  obtain ⟨fd, sub⟩ := e
  unfold StartWatchingFolder.body
  by_cases h1 : (!fd.name.isEmpty && fd.name.front != '.') = true <;>
    by_cases h2 : fd.attrib &&& _A_SUBDIR = 0 <;> simp [h1, h2]

theorem body_watchable (H : Host M) (folder : String) (e : _finddata_t × PakFolder)
    (h : Watchable e.1) :
    StartWatchingFolder.body H folder e = StartWatchingFolder H (H.Join folder e.1.name) e.2 := by
  rw [body_eq, if_pos]
  exact ⟨(nameCheck_iff _).2 h.2, h.1⟩

theorem body_not_watchable (H : Host M) (folder : String) (e : _finddata_t × PakFolder)
    (h : ¬ Watchable e.1) : StartWatchingFolder.body H folder e = [] := by
  rw [body_eq, if_neg]
  rintro ⟨h1, h2⟩
  exact h ⟨h2, (nameCheck_iff _).1 h1⟩

theorem next_eq (H : Host M) (folder : String) (rest : List (_finddata_t × PakFolder)) :
    StartWatchingFolder.next H folder rest =
      (rest.map (StartWatchingFolder.body H folder)).flatten := by
  induction rest with
  | nil => simp [StartWatchingFolder.next]
  | cons e es ih => simp [StartWatchingFolder.next, ih]

theorem StartWatchingFolder_eq (H : Host M) (folder : String) (pak : PakFolder) :
    StartWatchingFolder H folder pak =
      folder :: (pak.entries.map (StartWatchingFolder.body H folder)).flatten := by
  cases pak with
  | node found =>
    cases found with
    | none => simp [StartWatchingFolder, PakFolder.entries]
    | some r =>
      obtain ⟨fd, rest⟩ := r
      simp [StartWatchingFolder, PakFolder.entries, next_eq]

theorem mem_StartWatchingFolder (H : Host M) (folder : String) (pak : PakFolder) (p : String) :
    p ∈ StartWatchingFolder H folder pak ↔
      p = folder ∨ ∃ e ∈ pak.entries, Watchable e.1 ∧
        p ∈ StartWatchingFolder H (H.Join folder e.1.name) e.2 := by
  rw [StartWatchingFolder_eq]
  simp only [List.mem_cons, List.mem_flatten, List.mem_map]
  constructor
  · rintro (h | ⟨l, ⟨e, he, rfl⟩, hp⟩)
    · exact Or.inl h
    · by_cases hw : Watchable e.1
      · rw [body_watchable H folder e hw] at hp
        exact Or.inr ⟨e, he, hw, hp⟩
      · rw [body_not_watchable H folder e hw] at hp
        simp at hp
  · rintro (h | ⟨e, he, hw, hp⟩)
    · exact Or.inl h
    · refine Or.inr ⟨_, ⟨e, he, rfl⟩, ?_⟩
      rw [body_watchable H folder e hw]
      exact hp

theorem Reachable_of_chain (H : Host M) (chain : List (_finddata_t × PakFolder)) :
    ∀ (folder : String) (pak : PakFolder), IsChain pak chain →
      (∀ e ∈ chain, Watchable e.1) →
      chainPath H folder chain ∈ StartWatchingFolder H folder pak := by
  induction chain with
  | nil =>
    intro folder pak _ _
    rw [mem_StartWatchingFolder]
    exact Or.inl rfl
  | cons e es ih =>
    intro folder pak hc hw
    rw [mem_StartWatchingFolder]
    refine Or.inr ⟨e, hc.1, hw e (List.mem_cons_self _ _), ?_⟩
    exact ih (H.Join folder e.1.name) e.2 hc.2 (fun x hx => hw x (List.mem_cons_of_mem _ hx))

mutual
theorem chain_of_mem (H : Host M) : ∀ (pak : PakFolder) (folder p : String),
    p ∈ StartWatchingFolder H folder pak → Reachable H folder pak p
  | .node none, folder, p, h => by
    simp only [StartWatchingFolder, List.mem_singleton] at h
    exact ⟨[], trivial, by simp, by simp [chainPath, h]⟩
  | .node (some (fd, rest)), folder, p, h => by
    simp only [StartWatchingFolder, List.mem_cons, List.mem_append] at h
    rcases h with h | h | h
    · exact ⟨[], trivial, by simp, by simp [chainPath, h]⟩
    · obtain ⟨chain, hc, hw, hw1, hp⟩ := chain_of_mem_body H fd folder p h
      exact ⟨fd :: chain, ⟨by simp [PakFolder.entries], hc⟩,
        by
          intro e he
          rcases List.mem_cons.1 he with rfl | he
          · exact hw1
          · exact hw e he,
        by simpa [chainPath] using hp⟩
    · obtain ⟨e, he, chain, hc, hw, hw1, hp⟩ := chain_of_mem_next H rest folder p h
      exact ⟨e :: chain, ⟨by simp [PakFolder.entries, he], hc⟩,
        by
          intro x hx
          rcases List.mem_cons.1 hx with rfl | hx
          · exact hw1
          · exact hw x hx,
        by simpa [chainPath] using hp⟩
theorem chain_of_mem_body (H : Host M) : ∀ (e : _finddata_t × PakFolder) (folder p : String),
    p ∈ StartWatchingFolder.body H folder e →
      ∃ chain, IsChain e.2 chain ∧ (∀ x ∈ chain, Watchable x.1) ∧ Watchable e.1 ∧
        p = chainPath H (H.Join folder e.1.name) chain
  | (fd, sub), folder, p, h => by
    by_cases hw : Watchable fd
    · rw [body_watchable H folder (fd, sub) hw] at h
      obtain ⟨chain, hc, hws, hp⟩ := chain_of_mem H sub (H.Join folder fd.name) p h
      exact ⟨chain, hc, hws, hw, hp⟩
    · rw [body_not_watchable H folder (fd, sub) hw] at h
      simp at h
theorem chain_of_mem_next (H : Host M) : ∀ (rest : List (_finddata_t × PakFolder))
    (folder p : String), p ∈ StartWatchingFolder.next H folder rest →
      ∃ e ∈ rest, ∃ chain, IsChain e.2 chain ∧ (∀ x ∈ chain, Watchable x.1) ∧ Watchable e.1 ∧
        p = chainPath H (H.Join folder e.1.name) chain
  | [], folder, p, h => by simp [StartWatchingFolder.next] at h
  | e :: es, folder, p, h => by
    simp only [StartWatchingFolder.next, List.mem_append] at h
    rcases h with h | h
    · exact ⟨e, List.mem_cons_self _ _, chain_of_mem_body H e folder p h⟩
    · obtain ⟨x, hx, r⟩ := chain_of_mem_next H es folder p h
      exact ⟨x, List.mem_cons_of_mem _ hx, r⟩
end

/-- C5. `StartWatchingFolder` is a total function of the folder and the (finite) tree the
pak enumerates, so the call terminates. It adds `folder` first; a path is added exactly
if it is `folder` or the path of a descendant reached through a chain of entries each of
which is a sub-directory with a name that is neither empty nor starts with `'.'`; the
loop iteration for any other entry (a plain file, an empty name, a name starting with
`'.'`) adds nothing, whatever lies beneath that entry; and a folder whose listing cannot
be opened is added alone. -/
theorem StartWatchingFolder_adds_exactly (H : Host M) (folder : String) (pak : PakFolder) :
    (∀ p, p ∈ StartWatchingFolder H folder pak ↔ Reachable H folder pak p) ∧
    (StartWatchingFolder H folder pak).head? = some folder ∧
    (∀ e, ¬ Watchable e.1 → StartWatchingFolder.body H folder e = []) ∧
    (StartWatchingFolder H folder pak =
      folder :: (pak.entries.map (StartWatchingFolder.body H folder)).flatten) ∧
    StartWatchingFolder H folder (PakFolder.node none) = [folder] := by
  refine ⟨fun p => ⟨chain_of_mem H pak folder p, ?_⟩, ?_, ?_, StartWatchingFolder_eq H folder pak, ?_⟩
  · rintro ⟨chain, hc, hw, rfl⟩
    exact Reachable_of_chain H chain folder pak hc hw
  · rw [StartWatchingFolder_eq]; rfl
  · intro e he
    exact body_not_watchable H folder e he
  · simp [StartWatchingFolder]

/-! ## The definitions evaluated on the sample inputs -/

theorem StartWatchingFolder_samplePak :
    StartWatchingFolder sampleHost "sounds" samplePak =
      ["sounds", "sounds/banks", "sounds/banks/sfx"] := by
  decide

theorem run_sampleOps : run sampleHost (initial (List Bool)) sampleOps = some sampleFinal := by
  rfl

theorem closeEvent_sample_cancel :
    closeEvent sampleHost sampleWindow ⟨true⟩ QMessageBox.Cancel QMessageBox.No "Untitled" =
      some (sampleWindow, ⟨false⟩, [unsavedChangesDialog QMessageBox.Cancel, Event.ignore]) := by
  rfl

theorem closeEvent_sample_save :
    closeEvent sampleHost sampleWindow ⟨true⟩ QMessageBox.Save QMessageBox.Yes "Untitled" =
      some ({ sampleWindow with
                m_wasClosed := true
                m_pATLModel := some [false, false, false, false, false, false] },
            ⟨true⟩,
            [unsavedChangesDialog QMessageBox.Save, Event.setOverrideCursor, Event.Save,
             Event.SaveModels, Event.PushRequest_CLEAR_CONTROLS_DATA,
             Event.PushRequest_PARSE_CONTROLS_DATA "game/libs/gameaudio" false,
             Event.PushRequest_PARSE_CONTROLS_DATA "game/libs/gameaudio/levels/Untitled" true,
             Event.DataSaved, refreshQuestion QMessageBox.Yes, Event.RefreshAudioSystem "",
             Event.ClearDirtyFlags, Event.restoreOverrideCursor, Event.accept]) := by
  rfl

/-! ## The theorems applied to the sample inputs -/

/-- `StartWatchingFolder_adds_exactly` applied to the sample data folder. -/
theorem StartWatchingFolder_adds_exactly_witness :
    (∀ p, p ∈ StartWatchingFolder sampleHost "sounds" samplePak ↔
      Reachable sampleHost "sounds" samplePak p) ∧
    (StartWatchingFolder sampleHost "sounds" samplePak).head? = some "sounds" ∧
    (∀ e, ¬ Watchable e.1 → StartWatchingFolder.body sampleHost "sounds" e = []) ∧
    (StartWatchingFolder sampleHost "sounds" samplePak =
      "sounds" :: (samplePak.entries.map (StartWatchingFolder.body sampleHost "sounds")).flatten) ∧
    StartWatchingFolder sampleHost "sounds" (PakFolder.node none) = ["sounds"] :=
  StartWatchingFolder_adds_exactly sampleHost "sounds" samplePak

end AudioControls
